import Mathlib

/-!
# A shallow embedding of the UMA Go SDK message core

This file embeds the two source files `uma/version.go` and `uma/protocol.go`
of the `uma-go-sdk` repository in Lean 4 and proves properties of the
embedding.  Go strings are modelled as Lean `String`s (Go's `[]byte(s)` is the
UTF-8 encoding of `s`, and two strings are equal iff their UTF-8 bytes are),
Go `int`/`int64` as `Int` with explicit two's-complement range checks where
the library performs them, Go `*T` as `Option T`, and Go `(T, error)` results
as `Option T` / `Except String T`.  A Go nil-pointer dereference is modelled
as an explicit `nilDeref` outcome.

Definitions whose Go source is outside the two given files (the opaque
payer/payee metadata blocks and the `IsDomainLocalhost` helper) are modelled
from the specification and say so in their doc comments.
-/

namespace Uma

/-! ## Decimal formatting, Go style

`strconv.FormatInt(i, 10)` and `fmt.Sprintf("%d", i)` render an integer as an
optional `-` sign followed by base-10 digits.  The digit loop is written with
explicit fuel so that it is structurally recursive and evaluates inside the
kernel. -/

/-- Base-10 digits of `n`, most significant first, provided `n < 10 ^ fuel`. -/
def goDecimalDigits (fuel n : Nat) : List Char :=
  match fuel with
  | 0 => []
  | fuel + 1 =>
    if n < 10 then [Nat.digitChar n]
    else goDecimalDigits fuel (n / 10) ++ [Nat.digitChar (n % 10)]

/-- Go's rendering of a non-negative integer in base 10. -/
def goFormatNat (n : Nat) : String := String.mk (goDecimalDigits (n + 1) n)

/-- Go's `strconv.FormatInt(i, 10)` / `fmt.Sprintf("%d", i)`. -/
def goFormatInt (i : Int) : String :=
  if i < 0 then "-" ++ goFormatNat i.natAbs else goFormatNat i.natAbs

/-- The number named by a list of base-10 digit characters, read left to
right (the read-back side of the decimal encoding). -/
def digitsToNat (l : List Char) : Nat :=
  l.foldl (fun a c => a * 10 + (c.toNat - '0'.toNat)) 0

/-! ## Go `strings.Split` for a one-character separator

Every separator the two source files pass to `strings.Split` is a single
character (`"@"`, `"."`), so the embedding fixes the separator to a `Char`.
Go keeps empty fields and always returns at least one element. -/

def goSplitCharAux (sep : Char) : List Char → List Char → List String
  | [], acc => [String.mk acc.reverse]
  | c :: rest, acc =>
    if c = sep then String.mk acc.reverse :: goSplitCharAux sep rest []
    else goSplitCharAux sep rest (c :: acc)

/-- Go's `strings.Split s sep` for a one-character separator `sep`. -/
def goSplitChar (s : String) (sep : Char) : List String :=
  goSplitCharAux sep s.data []

/-! ## Go `strconv.ParseInt(s, 10, 64)`

Returns the parsed value together with an ok flag.  Go's contract: an
optional sign, then at least one base-10 digit and nothing else; on a syntax
error the returned value is `0`, on a range error it is the clamped
`int64` bound; in both cases the error flag is set. -/

def goParseInt64 (s : String) : Int × Bool :=
  match s.data with
  | [] => (0, false)
  | c :: rest =>
    let digits := if c = '-' ∨ c = '+' then rest else c :: rest
    if digits.isEmpty then (0, false)
    else if digits.all Char.isDigit then
      let n : Nat := digitsToNat digits
      if c = '-' then
        if 2 ^ 63 < n then (-(2 ^ 63), false) else (-(n : Int), true)
      else
        if 2 ^ 63 - 1 < n then (2 ^ 63 - 1, false) else ((n : Int), true)
    else (0, false)

/-! ## Go `fmt.Sscanf(s, "%d.%d", &major, &minor)`

The `%d` verb first discards leading blanks, then reads an optionally signed
run of base-10 digits into an `int` (64-bit, with a range check); the literal
`.` in the format must match the next input character exactly.  `Sscanf`
does not require the input to be fully consumed: trailing characters after
the second integer are ignored. -/

/-- One `%d` conversion: skip blanks, optional sign, at least one digit,
range-checked into `int64`; returns the value and the unread remainder. -/
def goScanDecimal (l : List Char) : Option (Int × List Char) :=
  match l.dropWhile (fun c => c == ' ' || c == '\t') with
  | [] => none
  | c :: rest =>
    let sign : Int := if c = '-' then -1 else 1
    let l2 := if c = '-' ∨ c = '+' then rest else c :: rest
    let digits := l2.takeWhile Char.isDigit
    if digits.isEmpty then none
    else
      let v : Int := sign * (digitsToNat digits : Int)
      if v < -(2 ^ 63) ∨ (2 ^ 63 - 1 : Int) < v then none
      else some (v, l2.dropWhile Char.isDigit)

/-- Go's `fmt.Sscanf(s, "%d.%d", &major, &minor)`, as used by
`ParseVersion`: both integers scanned, or an error. -/
def goSscanfDD (s : String) : Option (Int × Int) :=
  match goScanDecimal s.data with
  | none => none
  | some (major, rest) =>
    match rest with
    | '.' :: rest2 =>
      match goScanDecimal rest2 with
      | none => none
      | some (minor, _) => some (major, minor)
    | _ => none

/-! ## `uma/version.go` -/

def MAJOR_VERSION : Int := 1

def MINOR_VERSION : Int := 0

def backcompatVersions : List String := ["0.3"]

/-- Go: `fmt.Sprintf("%d.%d", MAJOR_VERSION, MINOR_VERSION)`. -/
def UmaProtocolVersion : String :=
  goFormatInt MAJOR_VERSION ++ "." ++ goFormatInt MINOR_VERSION

structure ParsedVersion where
  Major : Int
  Minor : Int
deriving DecidableEq

def ParseVersion (version : String) : Option ParsedVersion :=
  match goSscanfDD version with
  | none => none
  | some (major, minor) => some { Major := major, Minor := minor }

def ParsedVersion.String (v : ParsedVersion) :=
  goFormatInt v.Major ++ "." ++ goFormatInt v.Minor

/-- The key set of the Go map built by `GetSupportedMajorVersions`: the
current major plus the major of every parseable backward-compat entry (only
membership in the map is ever consulted). -/
def GetSupportedMajorVersions : List Int :=
  backcompatVersions.foldl
    (fun versions version =>
      match ParseVersion version with
      | none => versions
      | some parsedVersion =>
        if parsedVersion.Major ∈ versions then versions
        else versions ++ [parsedVersion.Major])
    [MAJOR_VERSION]

/-- The scan of `backcompatVersions` in
`GetHighestSupportedVersionForMajorVersion`: first parseable entry whose
major matches wins; unparseable entries are skipped. -/
def findBackcompatForMajor (majorVersion : Int) : List String → Option ParsedVersion
  | [] => none
  | version :: rest =>
    match ParseVersion version with
    | none => findBackcompatForMajor majorVersion rest
    | some parsedVersion =>
      if parsedVersion.Major = majorVersion then some parsedVersion
      else findBackcompatForMajor majorVersion rest

def GetHighestSupportedVersionForMajorVersion (majorVersion : Int) : Option ParsedVersion :=
  if majorVersion = MAJOR_VERSION then ParseVersion UmaProtocolVersion
  else findBackcompatForMajor majorVersion backcompatVersions

/-- One iteration of the loop in `SelectHighestSupportedVersion`, acting on
the running `highestVersion`. -/
def selectStep (highestVersion : Option ParsedVersion) (otherVaspMajorVersion : Int) :
    Option ParsedVersion :=
  if otherVaspMajorVersion ∉ GetSupportedMajorVersions then highestVersion
  else
    match highestVersion with
    | none => GetHighestSupportedVersionForMajorVersion otherVaspMajorVersion
    | some highest =>
      if otherVaspMajorVersion > highest.Major then
        GetHighestSupportedVersionForMajorVersion otherVaspMajorVersion
      else some highest

def SelectHighestSupportedVersion (otherVaspSupportedMajorVersions : List Int) :
    Option String :=
  (otherVaspSupportedMajorVersions.foldl selectStep none).map ParsedVersion.String

def SelectLowerVersion (version1String version2String : String) : Option String :=
  match ParseVersion version1String with
  | none => none
  | some version1 =>
    match ParseVersion version2String with
    | none => none
    | some version2 =>
      if version1.Major > version2.Major ∨
          (version1.Major = version2.Major ∧ version1.Minor > version2.Minor) then
        some version2String
      else some version1String

def IsVersionSupported (version : String) : Bool :=
  match ParseVersion version with
  | none => false
  | some parsedVersion => parsedVersion.Major ∈ GetSupportedMajorVersions

/-! ## `uma/protocol.go`: the capability (LNURLP) request

Go `*time.Time` timestamps are embedded as their unix-seconds value
(`Option Int`), which is the only way the two source files ever read them
(`Timestamp.Unix()`). -/

structure LnurlpRequest where
  ReceiverAddress : String
  Nonce : Option String
  Signature : Option String
  IsSubjectToTravelRule : Option Bool
  VaspDomain : Option String
  Timestamp : Option Int
  UmaVersion : Option String
deriving DecidableEq

structure UmaLnurlpRequest where
  LnurlpRequest : LnurlpRequest
  ReceiverAddress : String
  Nonce : String
  Signature : String
  IsSubjectToTravelRule : Bool
  VaspDomain : String
  Timestamp : Int
  UmaVersion : String
deriving DecidableEq

def LnurlpRequest.IsUmaRequest (q : LnurlpRequest) : Bool :=
  q.VaspDomain.isSome && q.Nonce.isSome && q.Signature.isSome &&
    q.Timestamp.isSome && q.UmaVersion.isSome

/-- Method `AsUmaRequest`: nil unless `IsUmaRequest`; otherwise every compliance
field is dereferenced (all five are non-nil under the guard; the inner
wildcard row is dead code) and a missing travel-rule flag becomes `false`. -/
def LnurlpRequest.AsUmaRequest (q : LnurlpRequest) : Option UmaLnurlpRequest :=
  if !q.IsUmaRequest then none
  else
    match q.Nonce, q.Signature, q.VaspDomain, q.Timestamp, q.UmaVersion with
    | some nonce, some signature, some vaspDomain, some timestamp, some umaVersion =>
      some
        { LnurlpRequest := q
          ReceiverAddress := q.ReceiverAddress
          Nonce := nonce
          Signature := signature
          IsSubjectToTravelRule := q.IsSubjectToTravelRule.getD false
          VaspDomain := vaspDomain
          Timestamp := timestamp
          UmaVersion := umaVersion }
    | _, _, _, _, _ => none

/-- Modelled from the spec: `IsDomainLocalhost` lives outside the two given
source files; the spec says the `http` scheme is chosen exactly "when the
host is a recognized loopback/local name".  The recognized names here are
the loopback host name and addresses, with any port stripped. -/
def IsDomainLocalhost (domain : String) : Bool :=
  let host := (goSplitChar domain ':').headD ""
  host == "localhost" || host == "127.0.0.1" || host == "::1"

/-- The parts of a Go `url.URL` that `EncodeToUrl` fills in.  Query
parameters are kept in the order they are `Add`ed (their final textual
encoding is presentation only). -/
structure Url where
  Scheme : String
  Host : String
  Path : String
  Query : List (String × String)
deriving DecidableEq

/-- Outcome of `EncodeToUrl`: the invalid-receiver-address error, a Go
nil-pointer dereference (a runtime crash), or a URL. -/
inductive EncodeUrlResult where
  | err
  | nilDeref
  | ok (u : Url)
deriving DecidableEq

/-- Method `EncodeToUrl`.  After the `IsUmaRequest` guard the five compliance
fields are non-nil (the wildcard row is dead code), but
`*q.IsSubjectToTravelRule` is dereferenced without a nil check even though
`IsUmaRequest` does not require it, so a compliant request with the flag
absent crashes: that is the `nilDeref` outcome. -/
def LnurlpRequest.EncodeToUrl (q : LnurlpRequest) : EncodeUrlResult :=
  let receiverAddressParts := goSplitChar q.ReceiverAddress '@'
  if receiverAddressParts.length ≠ 2 then .err
  else
    let host := receiverAddressParts.getD 1 ""
    let scheme := if IsDomainLocalhost host then "http" else "https"
    let path := "/.well-known/lnurlp/" ++ receiverAddressParts.headD ""
    if !q.IsUmaRequest then .ok { Scheme := scheme, Host := host, Path := path, Query := [] }
    else
      match q.Signature, q.VaspDomain, q.Nonce, q.Timestamp, q.UmaVersion with
      | some signature, some vaspDomain, some nonce, some timestamp, some umaVersion =>
        match q.IsSubjectToTravelRule with
        | none => .nilDeref
        | some isSubjectToTravelRule =>
          .ok
            { Scheme := scheme
              Host := host
              Path := path
              Query :=
                [("signature", signature),
                 ("vaspDomain", vaspDomain),
                 ("nonce", nonce),
                 ("isSubjectToTravelRule", if isSubjectToTravelRule then "true" else "false"),
                 ("timestamp", goFormatInt timestamp),
                 ("umaVersion", umaVersion)] }
      | _, _, _, _, _ => .nilDeref

/-- Method `LnurlpRequest.signablePayload`: pipe-join of receiver address, nonce
and unix timestamp, or an error when nonce or timestamp is nil. -/
def LnurlpRequest.signablePayload (q : LnurlpRequest) : Option String :=
  match q.Timestamp, q.Nonce with
  | some timestamp, some nonce =>
    some (String.intercalate "|" [q.ReceiverAddress, nonce, goFormatInt timestamp])
  | _, _ => none

/-! ## The capability (LNURLP) response -/

/-- Modelled from the spec: the KYC status enum of the compliance block is
defined outside the two given source files; it is carried opaquely here. -/
def KycStatus := String
deriving instance DecidableEq for KycStatus

/-- Modelled from the spec: one quotable currency; its shape is outside the
two given source files and no claimed operation reads into it. -/
structure Currency where
  Code : String
deriving DecidableEq

/-- Modelled from the spec: the description of the payer-data fields the
sender must supply — a map from field name to whether it is mandatory. -/
structure CounterPartyDataOption where
  Mandatory : Bool
deriving DecidableEq

/-- Modelled from the spec: see `CounterPartyDataOption`. -/
abbrev CounterPartyDataOptions := List (String × CounterPartyDataOption)

structure LnurlComplianceResponse where
  KycStatus : KycStatus
  Signature : String
  Nonce : String
  Timestamp : Int
  IsSubjectToTravelRule : Bool
  ReceiverIdentifier : String
deriving DecidableEq

structure LnurlpResponse where
  Tag : String
  Callback : String
  MinSendable : Int
  MaxSendable : Int
  EncodedMetadata : String
  Currencies : Option (List Currency)
  RequiredPayerData : Option CounterPartyDataOptions
  Compliance : Option LnurlComplianceResponse
  UmaVersion : Option String
  CommentCharsAllowed : Option Int
  NostrPubkey : Option String
  AllowsNostr : Option Bool
deriving DecidableEq

structure UmaLnurlpResponse where
  LnurlpResponse : LnurlpResponse
  Currencies : List Currency
  RequiredPayerData : CounterPartyDataOptions
  Compliance : LnurlComplianceResponse
  UmaVersion : String
  CommentCharsAllowed : Option Int
  NostrPubkey : Option String
  AllowsNostr : Option Bool
deriving DecidableEq

/-- Method `UmaLnurlpResponse.signablePayload`: total, no error path. -/
def UmaLnurlpResponse.signablePayload (r : UmaLnurlpResponse) : String :=
  String.intercalate "|"
    [r.Compliance.ReceiverIdentifier, r.Compliance.Nonce, goFormatInt r.Compliance.Timestamp]

/-! ## The invoice request (`PayRequest`)

The payer-data block itself is defined outside the two given source files.
The spec describes it as an opaque block that carries an (optional)
identifier and an (optional) compliance sub-block with a signature nonce and
a signature timestamp, and those are the only parts `protocol.go` reads. -/

/-- Modelled from the spec: the compliance sub-block of the payer data,
carrying the `(nonce, timestamp)` pair used for signing. -/
structure CompliancePayerData where
  SignatureNonce : String
  SignatureTimestamp : Int
deriving DecidableEq

/-- Modelled from the spec: the payer-data block, reduced to the two parts
`protocol.go` reads through `Identifier()` and `Compliance()`. -/
structure PayerData where
  identifier : Option String
  compliance : Option CompliancePayerData
deriving DecidableEq

/-- Modelled from the spec: the `Identifier()` accessor of the payer data. -/
def PayerData.Identifier (pd : PayerData) : Option String := pd.identifier

/-- Modelled from the spec: the `Compliance()` accessor of the payer data
(the compliance sub-block, or its absence). -/
def PayerData.Compliance (pd : PayerData) : Option CompliancePayerData := pd.compliance

structure PayRequest where
  SendingAmountCurrencyCode : Option String
  ReceivingCurrencyCode : Option String
  Amount : Int
  PayerData : Option PayerData
  RequestedPayeeData : Option CounterPartyDataOptions
  Comment : Option String
deriving DecidableEq

/-- The Go zero value of `PayRequest` (all pointers nil, amount zero), the
state `UnmarshalJSON` usually starts from. -/
def emptyPayRequest : PayRequest :=
  { SendingAmountCurrencyCode := none
    ReceivingCurrencyCode := none
    Amount := 0
    PayerData := none
    RequestedPayeeData := none
    Comment := none }

def PayRequest.IsUmaRequest (p : PayRequest) : Bool :=
  match p.PayerData with
  | none => false
  | some payerData => payerData.Compliance.isSome && payerData.Identifier.isSome

/-- Modelled from the spec: `json.Marshal` of the opaque payer-data block
(used verbatim inside the hand-built `PayRequest` JSON). -/
def encodePayerDataJson (pd : PayerData) : String :=
  "\x7b\"identifier\": " ++
    (match pd.identifier with
     | some identifier => "\"" ++ identifier ++ "\""
     | none => "null") ++
    ", \"compliance\": " ++
    (match pd.compliance with
     | some compliance =>
       "\x7b\"signatureNonce\": \"" ++ compliance.SignatureNonce ++
         "\", \"signatureTimestamp\": " ++ goFormatInt compliance.SignatureTimestamp ++ "\x7d"
     | none => "null") ++ "\x7d"

/-- Modelled from the spec: `json.Marshal` of the requested payee-data
descriptor. -/
def encodeCounterPartyDataOptionsJson (options : CounterPartyDataOptions) : String :=
  "\x7b" ++
    String.intercalate ", "
      (options.map fun kv =>
        "\"" ++ kv.fst ++ "\": \x7b\"mandatory\": " ++
          (if kv.snd.Mandatory then "true" else "false") ++ "\x7d") ++ "\x7d"

/-- Method `PayRequest.MarshalJSON`: JSON hand-built by string concatenation.  The
amount is rendered as a decimal string, with `"." ++ currency code` appended
when `SendingAmountCurrencyCode` is non-nil; each optional field appends its
own `,\n\t\t"key": value` fragment (the raw Go string literals contain a
newline followed by two tabs). -/
def PayRequest.MarshalJSON (p : PayRequest) : String :=
  let amount := goFormatInt p.Amount
  let amount := match p.SendingAmountCurrencyCode with
    | some code => amount ++ "." ++ code
    | none => amount
  let reqStr := "\x7b\n\t\t\"amount\": \"" ++ amount ++ "\""
  let reqStr := reqStr ++ match p.ReceivingCurrencyCode with
    | some code => ",\n\t\t\"convert\": \"" ++ code ++ "\""
    | none => ""
  let reqStr := reqStr ++ match p.PayerData with
    | some payerData => ",\n\t\t\"payerData\": " ++ encodePayerDataJson payerData
    | none => ""
  let reqStr := reqStr ++ match p.RequestedPayeeData with
    | some payeeData => ",\n\t\t\"payeeData\": " ++ encodeCounterPartyDataOptionsJson payeeData
    | none => ""
  let reqStr := reqStr ++ match p.Comment with
    | some comment => ",\n\t\t\"comment\": \"" ++ comment ++ "\""
    | none => ""
  reqStr ++ "\x7d"

/-! ## JSON values and `PayRequest.UnmarshalJSON`

`UnmarshalJSON` first decodes its input into `map[string]interface{}`; the
embedding starts from that decoded value (`Json`).  Only integral JSON
numbers are modelled; no claimed input carries a number.  A Go map keeps the
last of several bindings of the same key. -/

inductive Json where
  | null
  | bool (b : Bool)
  | num (n : Int)
  | str (s : String)
  | arr (elements : List Json)
  | obj (fields : List (String × Json))

deriving instance DecidableEq for Except

/-- Lookup in a decoded JSON object, Go-map style: the last binding of the
key wins. -/
def jsonLookup (fields : List (String × Json)) (key : String) : Option Json :=
  ((fields.filter fun kv => kv.fst == key).getLast?).map Prod.snd

/-- The Go type assertion `value.(string)`. -/
def Json.asString : Json → Option String
  | .str s => some s
  | _ => none

/-- The Go type assertion `value.(map[string]interface{})`. -/
def Json.asObj : Json → Option (List (String × Json))
  | .obj fields => some fields
  | _ => none

/-- Modelled from the spec: re-decoding the `payerData` object into the
opaque payer-data block (identifier plus compliance sub-block); decoding an
arbitrary object cannot fail. -/
def decodePayerData (fields : List (String × Json)) : PayerData :=
  { identifier := (jsonLookup fields "identifier").bind Json.asString
    compliance :=
      match (jsonLookup fields "compliance").bind Json.asObj with
      | none => none
      | some complianceFields =>
        some
          { SignatureNonce :=
              ((jsonLookup complianceFields "signatureNonce").bind Json.asString).getD ""
            SignatureTimestamp :=
              match jsonLookup complianceFields "signatureTimestamp" with
              | some (.num n) => n
              | _ => 0 } }

/-- Modelled from the spec: re-decoding the `payeeData` object into the
requested payee-data descriptor. -/
def decodeCounterPartyDataOptions (fields : List (String × Json)) : CounterPartyDataOptions :=
  fields.map fun kv =>
    (kv.fst,
      { Mandatory :=
          match kv.snd with
          | .obj optionFields =>
            match jsonLookup optionFields "mandatory" with
            | some (.bool b) => b
            | _ => false
          | _ => false })

/-- Method `PayRequest.UnmarshalJSON`, as a state transformer on the receiver: Go
mutates `p` field by field and returns an error value, so the embedding
returns the error outcome together with the state of the receiver when the
method returns.  The order of operations is the source's: `convert` is
assigned before the amount field is even checked, and `p.Amount` receives
`strconv.ParseInt`'s value (zero or a clamped bound on failure) before the
parse error is tested. -/
def PayRequest.UnmarshalJSON (p : PayRequest) (data : Json) : Except String Unit × PayRequest :=
  match data.asObj with
  | none => (.error "json: cannot unmarshal into a string map", p)
  | some rawReq =>
    let p := match (jsonLookup rawReq "convert").bind Json.asString with
      | some convert => { p with ReceivingCurrencyCode := some convert }
      | none => p
    match (jsonLookup rawReq "amount").bind Json.asString with
    | none => (.error "missing or invalid amount field", p)
    | some amount =>
      let amountParts := goSplitChar amount '.'
      if amountParts.length > 2 then (.error "invalid amount field", p)
      else
        let parsed := goParseInt64 (amountParts.headD "")
        let p := { p with Amount := parsed.fst }
        if !parsed.snd then (.error "strconv.ParseInt: parsing: invalid syntax", p)
        else
          let p :=
            if amountParts.length = 2 ∧ (amountParts.getD 1 "").length > 0 then
              { p with SendingAmountCurrencyCode := some (amountParts.getD 1 "") }
            else p
          let p := match (jsonLookup rawReq "payerData").bind Json.asObj with
            | some payerDataFields =>
              { p with PayerData := some (decodePayerData payerDataFields) }
            | none => p
          let p := match (jsonLookup rawReq "payeeData").bind Json.asObj with
            | some payeeDataFields =>
              { p with RequestedPayeeData := some (decodeCounterPartyDataOptions payeeDataFields) }
            | none => p
          let p := match (jsonLookup rawReq "comment").bind Json.asString with
            | some comment => { p with Comment := some comment }
            | none => p
          (.ok (), p)

/-- Method `PayRequest.signablePayload`: payer identifier, signature nonce and
signature timestamp from the payer data, pipe-joined; an error when the
payer data, its identifier (nil or empty), or its compliance sub-block is
missing. -/
def PayRequest.signablePayload (p : PayRequest) : Option String :=
  match p.PayerData with
  | none => none
  | some payerData =>
    match payerData.Identifier with
    | none => none
    | some senderAddress =>
      if senderAddress = "" then none
      else
        match payerData.Compliance with
        | none => none
        | some complianceData =>
          some
            (String.intercalate "|"
              [senderAddress, complianceData.SignatureNonce,
                goFormatInt complianceData.SignatureTimestamp])

/-! ## Payee compliance data and the post-transaction callback -/

/-- The payee compliance block: its struct lives outside the two given
source files, but `protocol.go` reads exactly the signature nonce and
signature timestamp (modelled from the spec for the rest). -/
structure CompliancePayeeData where
  SignatureNonce : String
  SignatureTimestamp : Int
deriving DecidableEq

/-- Method `CompliancePayeeData.signablePayload`: the Go method is on a pointer
receiver and errors when the receiver is nil, so the embedding takes an
`Option CompliancePayeeData`. -/
def CompliancePayeeData.signablePayload (c : Option CompliancePayeeData)
    (payerIdentifier payeeIdentifier : String) : Option String :=
  match c with
  | none => none
  | some c =>
    some
      (String.intercalate "|"
        [payerIdentifier, payeeIdentifier, c.SignatureNonce,
          goFormatInt c.SignatureTimestamp])

structure UtxoWithAmount where
  Utxo : String
  Amount : Int
deriving DecidableEq

structure PostTransactionCallback where
  Utxos : List UtxoWithAmount
  VaspDomain : String
  Signature : String
  Nonce : String
  Timestamp : Int
deriving DecidableEq

/-- Method `PostTransactionCallback.signablePayload`: total, no error path. -/
def PostTransactionCallback.signablePayload (c : PostTransactionCallback) : String :=
  String.intercalate "|" [c.Nonce, goFormatInt c.Timestamp]

/-! ## Spec-side definitions

These two follow the specification's words, not the source; they exist to
compare the source's behavior against what the spec demands. -/

/-- Follows the spec's words: a string of the shape `"major.minor"` for
non-negative base-10 integers — digits, one dot, digits, nothing else. -/
def specVersionShape (s : String) : Bool :=
  match goSplitChar s '.' with
  | [major, minor] =>
    !major.isEmpty && !minor.isEmpty &&
      major.data.all Char.isDigit && minor.data.all Char.isDigit
  | _ => false

/-- Follows the spec's words: the lexicographically smaller of two
`(major, minor)` pairs, major dominant (the first argument on a tie). -/
def lexMin (p q : ParsedVersion) : ParsedVersion :=
  if q.Major < p.Major ∨ (q.Major = p.Major ∧ q.Minor < p.Minor) then q else p

/-- A capability request carrying all five compliance fields but no
travel-rule flag: `IsUmaRequest` accepts it, yet `EncodeToUrl` dereferences
the absent flag. -/
def travelRuleAbsentUmaRequest : LnurlpRequest :=
  { ReceiverAddress := "alice@vasp.com"
    Nonce := some "nonce1"
    Signature := some "sig1"
    IsSubjectToTravelRule := none
    VaspDomain := some "sender.com"
    Timestamp := some 1700000000
    UmaVersion := some "1.0" }

/-! ## Reading back Go's decimal rendering -/

theorem digitChar_toNat (k : Nat) (h : k < 10) :
    (Nat.digitChar k).toNat = 48 + k := by
  interval_cases k <;> decide

theorem zeroChar_toNat : '0'.toNat = 48 := rfl

theorem digitChar_isDigit (k : Nat) (h : k < 10) : (Nat.digitChar k).isDigit = true := by
  interval_cases k <;> decide

theorem goDecimalDigits_all_digit (fuel n : Nat) :
    ∀ c ∈ goDecimalDigits fuel n, c.isDigit = true := by
  induction fuel generalizing n with
  | zero => simp [goDecimalDigits]
  | succ fuel ih =>
    intro c hc
    simp only [goDecimalDigits] at hc
    split at hc
    · simp at hc
      subst hc
      exact digitChar_isDigit n (by omega)
    · rcases List.mem_append.mp hc with hc | hc
      · exact ih (n / 10) c hc
      · simp at hc
        subst hc
        exact digitChar_isDigit (n % 10) (Nat.mod_lt n (by omega))

theorem goDecimalDigits_ne_nil (fuel n : Nat) (h : fuel ≠ 0) :
    goDecimalDigits fuel n ≠ [] := by
  cases fuel with
  | zero => exact absurd rfl h
  | succ fuel =>
    simp only [goDecimalDigits]
    split
    · simp
    · simp

theorem digitsToNat_append_one (l : List Char) (c : Char) :
    digitsToNat (l ++ [c]) = digitsToNat l * 10 + (c.toNat - '0'.toNat) := by
  simp [digitsToNat, List.foldl_append]

theorem digitsToNat_goDecimalDigits (fuel n : Nat) (h : n < 10 ^ fuel) :
    digitsToNat (goDecimalDigits fuel n) = n := by
  induction fuel generalizing n with
  | zero =>
    simp [Nat.pow_zero] at h
    simp [h, goDecimalDigits, digitsToNat]
  | succ fuel ih =>
    simp only [goDecimalDigits]
    split
    · simp [digitsToNat]
      have h1 := digitChar_toNat n (by omega)
      have h0 := zeroChar_toNat
      omega
    · rw [digitsToNat_append_one]
      rw [ih (n / 10) (by rw [Nat.pow_succ] at h; omega)]
      have h1 := digitChar_toNat (n % 10) (Nat.mod_lt n (by omega))
      have h0 := zeroChar_toNat
      omega

theorem lt_ten_pow_succ (n : Nat) : n < 10 ^ (n + 1) :=
  lt_of_lt_of_le (Nat.lt_pow_self (by norm_num) n)
    (Nat.pow_le_pow_right (by norm_num) (Nat.le_succ n))

theorem digitsToNat_goFormatNat (n : Nat) : digitsToNat (goFormatNat n).data = n :=
  digitsToNat_goDecimalDigits (n + 1) n (lt_ten_pow_succ n)

theorem goFormatNat_data (n : Nat) : (goFormatNat n).data = goDecimalDigits (n + 1) n := rfl

theorem goFormatNat_all_digit (n : Nat) :
    ∀ c ∈ (goFormatNat n).data, c.isDigit = true := by
  rw [goFormatNat_data]
  exact goDecimalDigits_all_digit (n + 1) n

theorem goFormatNat_data_ne_nil (n : Nat) : (goFormatNat n).data ≠ [] := by
  rw [goFormatNat_data]
  exact goDecimalDigits_ne_nil (n + 1) n (by omega)

/-! ## `takeWhile` / `dropWhile` over an all-true prefix -/

theorem takeWhile_append_all {α : Type} (p : α → Bool) (l r : List α)
    (h : ∀ c ∈ l, p c = true) :
    (l ++ r).takeWhile p = l ++ r.takeWhile p := by
  induction l with
  | nil => simp
  | cons c l ih =>
    have hc : p c = true := h c (by simp)
    simp only [List.cons_append, List.takeWhile_cons, hc]
    simp [ih fun x hx => h x (by simp [hx])]

theorem dropWhile_append_all {α : Type} (p : α → Bool) (l r : List α)
    (h : ∀ c ∈ l, p c = true) :
    (l ++ r).dropWhile p = r.dropWhile p := by
  induction l with
  | nil => simp
  | cons c l ih =>
    have hc : p c = true := h c (by simp)
    simp only [List.cons_append, List.dropWhile_cons, hc]
    simp [ih fun x hx => h x (by simp [hx])]

theorem dropWhile_eq_self_of_takeWhile_nil {α : Type} (p : α → Bool) (r : List α)
    (h : r.takeWhile p = []) : r.dropWhile p = r := by
  cases r with
  | nil => simp
  | cons c r =>
    simp only [List.takeWhile_cons] at h
    split at h
    · simp at h
    · simp only [List.dropWhile_cons]
      simp_all

/-! ## One `%d` conversion consumes exactly a digit run -/

theorem isDigit_not_space {c : Char} (h : c.isDigit = true) :
    (c == ' ' || c == '\t') = false := by
  simp only [Char.isDigit] at h
  simp only [Bool.or_eq_false_iff, beq_eq_false_iff_ne]
  constructor <;> rintro rfl <;> simp_all

theorem isDigit_ne_minus {c : Char} (h : c.isDigit = true) : ¬(c = '-' ∨ c = '+') := by
  rintro (rfl | rfl) <;> simp_all [Char.isDigit]

theorem goScanDecimal_digits_append (dl rest : List Char) (hne : dl ≠ [])
    (hdl : ∀ c ∈ dl, c.isDigit = true)
    (hrest : rest.takeWhile Char.isDigit = [])
    (hn : digitsToNat dl < 2 ^ 63) :
    goScanDecimal (dl ++ rest) = some ((digitsToNat dl : Int), rest) := by
  obtain ⟨c, dt, rfl⟩ : ∃ c dt, dl = c :: dt := by
    cases dl with
    | nil => exact absurd rfl hne
    | cons c dt => exact ⟨c, dt, rfl⟩
  have hc : c.isDigit = true := hdl c (by simp)
  have hdrop : (c :: dt ++ rest).dropWhile (fun c => c == ' ' || c == '\t') =
      c :: (dt ++ rest) := by
    simp only [List.cons_append, List.dropWhile_cons, isDigit_not_space hc]
    simp
  simp only [goScanDecimal, List.cons_append] at hdrop ⊢
  rw [hdrop]
  have hsign : ¬(c = '-' ∨ c = '+') := isDigit_ne_minus hc
  have hcm : ¬ c = '-' := fun h => hsign (Or.inl h)
  simp only [if_neg hsign, if_neg hcm]
  have htake : (c :: (dt ++ rest)).takeWhile Char.isDigit = (c :: dt) ++ rest.takeWhile Char.isDigit := by
    have := takeWhile_append_all Char.isDigit (c :: dt) rest hdl
    simpa using this
  have hdropd : (c :: (dt ++ rest)).dropWhile Char.isDigit = rest.dropWhile Char.isDigit := by
    have := dropWhile_append_all Char.isDigit (c :: dt) rest hdl
    simpa using this
  rw [htake, hdropd, hrest, dropWhile_eq_self_of_takeWhile_nil Char.isDigit rest hrest]
  simp only [List.append_nil]
  have hnonempty : ((c :: dt).isEmpty = false) := by simp
  rw [if_neg (by simp)]
  have hv0 : (0 : Int) ≤ 1 * (digitsToNat (c :: dt) : Int) := by positivity
  rw [if_neg ?_]
  · norm_num
  · push_neg
    constructor
    · omega
    · have : (digitsToNat (c :: dt) : Int) < 2 ^ 63 := by exact_mod_cast hn
      omega

/-! ## `ParseVersion` inverts `String()` on non-negative pairs -/

theorem goFormatInt_nonneg (i : Int) (h : 0 ≤ i) : goFormatInt i = goFormatNat i.natAbs := by
  simp [goFormatInt, not_lt.mpr h]

theorem takeWhile_isDigit_dot (l : List Char) :
    ('.' :: l).takeWhile Char.isDigit = [] := by
  have hdot : ('.' : Char).isDigit = false := rfl
  simp [List.takeWhile_cons, hdot]

theorem goScanDecimal_goFormatNat (n : Nat) (rest : List Char)
    (hrest : rest.takeWhile Char.isDigit = []) (hn : n < 2 ^ 63) :
    goScanDecimal ((goFormatNat n).data ++ rest) = some ((n : Int), rest) := by
  have h := goScanDecimal_digits_append (goFormatNat n).data rest
    (goFormatNat_data_ne_nil n) (goFormatNat_all_digit n) hrest
    (by rw [digitsToNat_goFormatNat]; exact hn)
  rw [digitsToNat_goFormatNat] at h
  exact h

theorem ParseVersion_String_of_nonneg (M N : Int)
    (hM0 : 0 ≤ M) (hM : M < 2 ^ 63) (hN0 : 0 ≤ N) (hN : N < 2 ^ 63) :
    ParseVersion (ParsedVersion.String { Major := M, Minor := N }) =
      some { Major := M, Minor := N } := by
  have hdata : (ParsedVersion.String { Major := M, Minor := N }).data =
      (goFormatNat M.natAbs).data ++ '.' :: (goFormatNat N.natAbs).data := by
    show (goFormatInt M ++ "." ++ goFormatInt N).data = _
    rw [goFormatInt_nonneg M hM0, goFormatInt_nonneg N hN0]
    show ((goFormatNat M.natAbs).data ++ ['.']) ++ (goFormatNat N.natAbs).data = _
    simp
  have hMnat : (M.natAbs : Int) = M := Int.natAbs_of_nonneg hM0
  have hNnat : (N.natAbs : Int) = N := Int.natAbs_of_nonneg hN0
  have hMlt : M.natAbs < 2 ^ 63 := by omega
  have hNlt : N.natAbs < 2 ^ 63 := by omega
  have hfirst := goScanDecimal_goFormatNat M.natAbs ('.' :: (goFormatNat N.natAbs).data)
    (takeWhile_isDigit_dot _) hMlt
  have hsecond : goScanDecimal (goFormatNat N.natAbs).data = some ((N.natAbs : Int), []) := by
    have := goScanDecimal_goFormatNat N.natAbs [] rfl hNlt
    simpa using this
  unfold ParseVersion goSscanfDD
  rw [hdata, hfirst]
  simp only [hsecond]
  rw [hMnat, hNnat]

/-! ## The supported-version catalog, evaluated -/

theorem GetSupportedMajorVersions_eq : GetSupportedMajorVersions = [1, 0] := by decide

theorem GetHighest_one :
    GetHighestSupportedVersionForMajorVersion 1 = some { Major := 1, Minor := 0 } := by decide

theorem GetHighest_zero :
    GetHighestSupportedVersionForMajorVersion 0 = some { Major := 0, Minor := 3 } := by decide

theorem selectStep_one_kept (m : Int) :
    selectStep (some { Major := 1, Minor := 0 }) m = some { Major := 1, Minor := 0 } := by
  by_cases h1 : m = 1
  · subst h1; decide
  · by_cases h0 : m = 0
    · subst h0; decide
    · have hm : m ∉ GetSupportedMajorVersions := by
        rw [GetSupportedMajorVersions_eq]; simp [h1, h0]
      simp [selectStep, hm]

theorem selectStep_zero (m : Int) :
    selectStep (some { Major := 0, Minor := 3 }) m =
      if m = 1 then some { Major := 1, Minor := 0 } else some { Major := 0, Minor := 3 } := by
  by_cases h1 : m = 1
  · subst h1; decide
  · by_cases h0 : m = 0
    · subst h0; decide
    · have hm : m ∉ GetSupportedMajorVersions := by
        rw [GetSupportedMajorVersions_eq]; simp [h1, h0]
      simp [selectStep, hm, h1]

theorem selectStep_none (m : Int) :
    selectStep none m =
      if m = 1 then some { Major := 1, Minor := 0 }
      else if m = 0 then some { Major := 0, Minor := 3 } else none := by
  by_cases h1 : m = 1
  · subst h1; decide
  · by_cases h0 : m = 0
    · subst h0; decide
    · have hm : m ∉ GetSupportedMajorVersions := by
        rw [GetSupportedMajorVersions_eq]; simp [h1, h0]
      simp [selectStep, hm, h1, h0]

theorem foldl_selectStep_one (l : List Int) :
    l.foldl selectStep (some { Major := 1, Minor := 0 }) = some { Major := 1, Minor := 0 } := by
  induction l with
  | nil => rfl
  | cons m l ih => rw [List.foldl_cons, selectStep_one_kept]; exact ih

theorem foldl_selectStep_zero (l : List Int) :
    l.foldl selectStep (some { Major := 0, Minor := 3 }) =
      if (1 : Int) ∈ l then some { Major := 1, Minor := 0 }
      else some { Major := 0, Minor := 3 } := by
  induction l with
  | nil => simp
  | cons m l ih =>
    rw [List.foldl_cons, selectStep_zero]
    by_cases h1 : m = 1
    · subst h1
      rw [if_pos rfl, foldl_selectStep_one, if_pos (by simp)]
    · rw [if_neg h1, ih]
      by_cases hmem : (1 : Int) ∈ l
      · simp [hmem, List.mem_cons]
      · simp [hmem, List.mem_cons, Ne.symm h1]

theorem foldl_selectStep_start (l : List Int) :
    l.foldl selectStep none =
      if (1 : Int) ∈ l then some { Major := 1, Minor := 0 }
      else if (0 : Int) ∈ l then some { Major := 0, Minor := 3 } else none := by
  induction l with
  | nil => simp
  | cons m l ih =>
    rw [List.foldl_cons, selectStep_none]
    by_cases h1 : m = 1
    · subst h1
      rw [if_pos rfl, foldl_selectStep_one, if_pos (by simp)]
    · by_cases h0 : m = 0
      · subst h0
        rw [if_neg h1, if_pos rfl, foldl_selectStep_zero]
        by_cases hmem : (1 : Int) ∈ l
        · simp [hmem, List.mem_cons]
        · simp [hmem, List.mem_cons]
      · rw [if_neg h1, if_neg h0, ih]
        by_cases hmem1 : (1 : Int) ∈ l
        · simp [hmem1, List.mem_cons]
        · by_cases hmem0 : (0 : Int) ∈ l
          · simp [hmem1, hmem0, List.mem_cons, Ne.symm h1]
          · simp [hmem1, hmem0, List.mem_cons, Ne.symm h1, Ne.symm h0]

/-! ## Claim C5: version parse/format round-trip -/

/-- Claim C5, counterexample.  The claim says `ParseVersion` fails on every
string that is not of the `"major.minor"` shape for non-negative integers.
It does not: `"1.0.5"` is not of that shape, yet `ParseVersion` accepts it
and returns `{1, 0}`, because Go's `Sscanf` ignores input left over after
the format is exhausted. -/
theorem version_parse_accepts_nonshape :
    specVersionShape "1.0.5" = false ∧
      ParseVersion "1.0.5" = some { Major := 1, Minor := 0 } := by
  constructor
  · decide
  · decide

/-- Claim C5 (amended): for every pair of non-negative integers
representable in Go's `int` (below `2^63`), `ParseVersion` applied to
`ParsedVersion.String {major, minor}` succeeds and returns exactly
`{major, minor}`.  (The failure half of the original claim is false: parsing
also accepts strings with trailing content, see
`version_parse_accepts_nonshape`.) -/
theorem version_parse_format_roundtrip (M N : Int)
    (hM0 : 0 ≤ M) (hM : M < 2 ^ 63) (hN0 : 0 ≤ N) (hN : N < 2 ^ 63) :
    ParseVersion (ParsedVersion.String { Major := M, Minor := N }) =
      some { Major := M, Minor := N } :=
  ParseVersion_String_of_nonneg M N hM0 hM hN0 hN

/-- Witness for `version_parse_format_roundtrip` at `major = 12`,
`minor = 34`. -/
theorem version_parse_format_roundtrip_witness :
    ParseVersion (ParsedVersion.String { Major := 12, Minor := 34 }) =
      some { Major := 12, Minor := 34 } :=
  version_parse_format_roundtrip 12 34 (by norm_num) (by norm_num) (by norm_num) (by norm_num)

/-! ## Claim C6: mutual version selection -/

/-- Claim C6: `SelectHighestSupportedVersion` considers only majors in the
intersection of the counterparty's list with the supported majors `{1, 0}`,
keeps the greatest major seen (ties by first encounter — majors map to
unique versions, so the result is fully determined: `"1.0"` if major `1`
occurs, else `"0.3"` if major `0` occurs, else none); in particular `[1]`
selects the current version `"1.0"` and `[7]` selects nothing. -/
theorem select_highest_supported_version_spec :
    (∀ l : List Int,
      SelectHighestSupportedVersion l =
        if (1 : Int) ∈ l then some "1.0"
        else if (0 : Int) ∈ l then some "0.3" else none) ∧
    SelectHighestSupportedVersion [1] = some "1.0" ∧
    SelectHighestSupportedVersion [7] = none := by
  refine ⟨?_, by decide, by decide⟩
  intro l
  unfold SelectHighestSupportedVersion
  rw [foldl_selectStep_start]
  by_cases h1 : (1 : Int) ∈ l
  · rw [if_pos h1, if_pos h1]
    decide
  · rw [if_neg h1, if_neg h1]
    by_cases h0 : (0 : Int) ∈ l
    · rw [if_pos h0, if_pos h0]
      decide
    · rw [if_neg h0, if_neg h0]
      rfl

/-! ## Claim C7: `SelectLowerVersion` -/

/-- Claim C7, counterexample.  The claim says `SelectLowerVersion` is
symmetric for any two parseable version strings.  It is not: `"1.0"` and
`"01.0"` both parse (to the same pair `{1, 0}`), and each call returns its
own first argument, two different strings. -/
theorem select_lower_version_asymmetric :
    (ParseVersion "1.0").isSome = true ∧
      (ParseVersion "01.0").isSome = true ∧
      SelectLowerVersion "1.0" "01.0" = some "1.0" ∧
      SelectLowerVersion "01.0" "1.0" = some "01.0" ∧
      ("1.0" : String) ≠ "01.0" := by
  refine ⟨by decide, by decide, by decide, by decide, by decide⟩

/-- Claim C7 (amended): `SelectLowerVersion` errors when either argument
fails to parse; on two parseable arguments both orders return one of the two
argument strings, and both return a string parsing to the lexicographically
smaller `(major, minor)` pair; when the two parses differ the two orders
return the same string (symmetry can only fail between distinct strings that
parse to the same pair). -/
theorem select_lower_version_amended :
    (∀ a b : String, ParseVersion a = none ∨ ParseVersion b = none →
      SelectLowerVersion a b = none) ∧
    (∀ a b : String, ∀ pa pb : ParsedVersion,
      ParseVersion a = some pa → ParseVersion b = some pb →
      ∃ r r' : String,
        SelectLowerVersion a b = some r ∧ SelectLowerVersion b a = some r' ∧
        (r = a ∨ r = b) ∧ (r' = a ∨ r' = b) ∧
        ParseVersion r = some (lexMin pa pb) ∧
        ParseVersion r' = some (lexMin pa pb) ∧
        (pa ≠ pb → r = r')) := by
  constructor
  · intro a b h
    rcases h with h | h <;> simp [SelectLowerVersion, h]
    cases hpa : ParseVersion a <;> simp
  · intro a b pa pb ha hb
    by_cases hcond : pa.Major > pb.Major ∨ (pa.Major = pb.Major ∧ pa.Minor > pb.Minor)
    · have hcond2 : ¬(pb.Major > pa.Major ∨ (pb.Major = pa.Major ∧ pb.Minor > pa.Minor)) := by
        omega
      have hlex : lexMin pa pb = pb := by
        unfold lexMin
        rw [if_pos (by omega)]
      refine ⟨b, b, ?_, ?_, Or.inr rfl, Or.inr rfl, ?_, ?_, fun _ => rfl⟩
      · simp [SelectLowerVersion, ha, hb, hcond]
      · simp [SelectLowerVersion, ha, hb, hcond2]
      · rw [hlex]; exact hb
      · rw [hlex]; exact hb
    · by_cases hcond2 : pb.Major > pa.Major ∨ (pb.Major = pa.Major ∧ pb.Minor > pa.Minor)
      · have hlex : lexMin pa pb = pa := by
          unfold lexMin
          rw [if_neg (by omega)]
        refine ⟨a, a, ?_, ?_, Or.inl rfl, Or.inl rfl, ?_, ?_, fun _ => rfl⟩
        · simp [SelectLowerVersion, ha, hb, hcond]
        · simp [SelectLowerVersion, ha, hb, hcond2]
        · rw [hlex]; exact ha
        · rw [hlex]; exact ha
      · have heq : pa = pb := by
          cases pa; cases pb
          simp_all
          omega
        have hlex : lexMin pa pb = pa := by
          unfold lexMin
          rw [if_neg (by omega)]
        refine ⟨a, b, ?_, ?_, Or.inl rfl, Or.inr rfl, ?_, ?_, fun hne => absurd heq hne⟩
        · simp [SelectLowerVersion, ha, hb, hcond]
        · simp [SelectLowerVersion, ha, hb, hcond2]
        · rw [hlex]; exact ha
        · rw [hlex, heq]; exact hb

/-- Witness for `select_lower_version_amended` at `a = "0.3"`,
`b = "1.0"`. -/
theorem select_lower_version_amended_witness :
    ∃ r r' : String,
      SelectLowerVersion "0.3" "1.0" = some r ∧ SelectLowerVersion "1.0" "0.3" = some r' ∧
      (r = "0.3" ∨ r = "1.0") ∧ (r' = "0.3" ∨ r' = "1.0") ∧
      ParseVersion r = some (lexMin { Major := 0, Minor := 3 } { Major := 1, Minor := 0 }) ∧
      ParseVersion r' = some (lexMin { Major := 0, Minor := 3 } { Major := 1, Minor := 0 }) ∧
      ({ Major := 0, Minor := 3 } ≠ ({ Major := 1, Minor := 0 } : ParsedVersion) → r = r') :=
  select_lower_version_amended.2 "0.3" "1.0" { Major := 0, Minor := 3 } { Major := 1, Minor := 0 }
    (by decide) (by decide)

/-! ## Claim C2: canonical signable payloads -/

/-- Claim C2: every canonical signable payload is the UTF-8 string of the
message's fields joined by `|` in the fixed per-type order — capability
request: receiverAddress, nonce, unix timestamp; invoice request: payer
identifier, nonce, timestamp from the payer-data compliance sub-block; payee
compliance data: payer identifier, payee identifier, nonce, timestamp;
post-transaction callback: nonce, timestamp — and in particular the
capability request for `alice@vasp.com` with nonce `abc` at time
`1700000000` canonicalizes to exactly `alice@vasp.com|abc|1700000000`. -/
theorem canonical_signable_payloads :
    (∀ (q : LnurlpRequest) (nonce : String) (ts : Int),
      q.Nonce = some nonce → q.Timestamp = some ts →
      q.signablePayload = some (q.ReceiverAddress ++ "|" ++ nonce ++ "|" ++ goFormatInt ts)) ∧
    (∀ (p : PayRequest) (pd : PayerData) (payerId : String) (cd : CompliancePayerData),
      p.PayerData = some pd → pd.identifier = some payerId → payerId ≠ "" →
      pd.compliance = some cd →
      p.signablePayload =
        some (payerId ++ "|" ++ cd.SignatureNonce ++ "|" ++ goFormatInt cd.SignatureTimestamp)) ∧
    (∀ (c : CompliancePayeeData) (payerId payeeId : String),
      CompliancePayeeData.signablePayload (some c) payerId payeeId =
        some (payerId ++ "|" ++ payeeId ++ "|" ++ c.SignatureNonce ++ "|" ++
          goFormatInt c.SignatureTimestamp)) ∧
    (∀ cb : PostTransactionCallback,
      cb.signablePayload = cb.Nonce ++ "|" ++ goFormatInt cb.Timestamp) ∧
    LnurlpRequest.signablePayload
        { ReceiverAddress := "alice@vasp.com", Nonce := some "abc", Signature := none,
          IsSubjectToTravelRule := none, VaspDomain := none,
          Timestamp := some 1700000000, UmaVersion := none } =
      some "alice@vasp.com|abc|1700000000" := by
  refine ⟨?_, ?_, ?_, ?_, by decide⟩
  · intro q nonce ts hn ht
    simp only [LnurlpRequest.signablePayload, hn, ht]
    rfl
  · intro p pd payerId cd hp hid hne hcd
    simp only [PayRequest.signablePayload, PayerData.Identifier, PayerData.Compliance,
      hp, hid, hne, hcd, if_neg hne]
    rfl
  · intro c payerId payeeId
    rfl
  · intro cb
    rfl

/-- Witness for `canonical_signable_payloads` at the capability request for
`alice@vasp.com`, nonce `abc`, timestamp `1700000000`. -/
theorem canonical_signable_payloads_witness :
    LnurlpRequest.signablePayload
        { ReceiverAddress := "alice@vasp.com", Nonce := some "abc", Signature := none,
          IsSubjectToTravelRule := none, VaspDomain := none,
          Timestamp := some 1700000000, UmaVersion := none } =
      some ("alice@vasp.com" ++ "|" ++ "abc" ++ "|" ++ goFormatInt 1700000000) :=
  canonical_signable_payloads.1 _ "abc" 1700000000 rfl rfl

/-! ## Claim C4: loose-to-strict upgrade of the capability request -/

/-- Claim C4: `IsUmaRequest` holds exactly when nonce, signature, sender
domain, timestamp and version are all present (the travel-rule flag is not
required); when it holds, `AsUmaRequest` returns a populated strict value
whose fields equal the loose ones, with the travel-rule flag defaulting to
false and the original loose request embedded unchanged; when any of the
five is missing, `AsUmaRequest` returns nil, not an error. -/
theorem lnurlp_upgrade_spec :
    (∀ q : LnurlpRequest,
      q.IsUmaRequest = true ↔
        (q.Nonce.isSome = true ∧ q.Signature.isSome = true ∧ q.VaspDomain.isSome = true ∧
          q.Timestamp.isSome = true ∧ q.UmaVersion.isSome = true)) ∧
    (∀ (q : LnurlpRequest) (nonce signature vaspDomain : String) (ts : Int) (uv : String),
      q.Nonce = some nonce → q.Signature = some signature → q.VaspDomain = some vaspDomain →
      q.Timestamp = some ts → q.UmaVersion = some uv →
      q.AsUmaRequest = some
        { LnurlpRequest := q
          ReceiverAddress := q.ReceiverAddress
          Nonce := nonce
          Signature := signature
          IsSubjectToTravelRule := q.IsSubjectToTravelRule.getD false
          VaspDomain := vaspDomain
          Timestamp := ts
          UmaVersion := uv }) ∧
    (∀ q : LnurlpRequest, q.IsUmaRequest = false → q.AsUmaRequest = none) := by
  refine ⟨?_, ?_, ?_⟩
  · intro q
    simp only [LnurlpRequest.IsUmaRequest, Bool.and_eq_true]
    tauto
  · intro q nonce signature vaspDomain ts uv hn hs hv ht hu
    have huma : q.IsUmaRequest = true := by
      simp [LnurlpRequest.IsUmaRequest, hn, hs, hv, ht, hu]
    simp [LnurlpRequest.AsUmaRequest, huma, hn, hs, hv, ht, hu]
  · intro q h
    simp [LnurlpRequest.AsUmaRequest, h]

/-- Witness for `lnurlp_upgrade_spec`: a fully populated loose request
upgrades to the matching strict value. -/
theorem lnurlp_upgrade_spec_witness :
    LnurlpRequest.AsUmaRequest
        { ReceiverAddress := "alice@vasp.com", Nonce := some "n1", Signature := some "s1",
          IsSubjectToTravelRule := none, VaspDomain := some "d1",
          Timestamp := some 5, UmaVersion := some "1.0" } =
      some
        { LnurlpRequest :=
            { ReceiverAddress := "alice@vasp.com", Nonce := some "n1", Signature := some "s1",
              IsSubjectToTravelRule := none, VaspDomain := some "d1",
              Timestamp := some 5, UmaVersion := some "1.0" }
          ReceiverAddress := "alice@vasp.com"
          Nonce := "n1"
          Signature := "s1"
          IsSubjectToTravelRule := (none : Option Bool).getD false
          VaspDomain := "d1"
          Timestamp := 5
          UmaVersion := "1.0" } :=
  lnurlp_upgrade_spec.2.1 _ "n1" "s1" "d1" 5 "1.0" rfl rfl rfl rfl rfl

/-! ## Claim C8: missing signing material is fatal -/

/-- Claim C8: canonicalization fails exactly when a required identifying
field is absent — the capability request's payload errors iff nonce or
timestamp is nil, and the invoice request's payload errors iff the payer
data is nil, its identifier is nil or empty, or its compliance sub-block
is nil; the `Option` result carries no partial payload in any error case. -/
theorem missing_signing_material_fatal :
    (∀ q : LnurlpRequest,
      q.signablePayload = none ↔ (q.Nonce = none ∨ q.Timestamp = none)) ∧
    (∀ p : PayRequest,
      p.signablePayload = none ↔
        (p.PayerData = none ∨
          ∃ pd : PayerData, p.PayerData = some pd ∧
            (pd.identifier = none ∨ pd.identifier = some "" ∨ pd.compliance = none))) := by
  constructor
  · intro q
    cases ht : q.Timestamp <;> cases hn : q.Nonce <;>
      simp [LnurlpRequest.signablePayload, ht, hn]
  · intro p
    cases hp : p.PayerData with
    | none => simp [PayRequest.signablePayload, hp]
    | some pd =>
      cases hid : pd.identifier with
      | none =>
        simp [PayRequest.signablePayload, PayerData.Identifier, hp, hid]
      | some payerId =>
        by_cases hne : payerId = ""
        · subst hne
          simp [PayRequest.signablePayload, PayerData.Identifier, hp, hid]
        · cases hcd : pd.compliance with
          | none =>
            simp [PayRequest.signablePayload, PayerData.Identifier, PayerData.Compliance,
              hp, hid, hne, hcd]
          | some cd =>
            simp [PayRequest.signablePayload, PayerData.Identifier, PayerData.Compliance,
              hp, hid, hne, hcd]

/-! ## Claim C10: strict-field canonicalization is total -/

/-- Claim C10 (implicit): `PostTransactionCallback.signablePayload` and
`UmaLnurlpResponse.signablePayload` have no error path: for every value —
including empty-string nonces and identifiers, which are accepted silently —
the result is the pipe-join of their fields (`Nonce|Timestamp` and
`ReceiverIdentifier|Nonce|Timestamp` respectively). -/
theorem strict_payload_total :
    (∀ cb : PostTransactionCallback,
      cb.signablePayload = cb.Nonce ++ "|" ++ goFormatInt cb.Timestamp) ∧
    (∀ r : UmaLnurlpResponse,
      r.signablePayload =
        r.Compliance.ReceiverIdentifier ++ "|" ++ r.Compliance.Nonce ++ "|" ++
          goFormatInt r.Compliance.Timestamp) ∧
    PostTransactionCallback.signablePayload
        { Utxos := [], VaspDomain := "", Signature := "", Nonce := "", Timestamp := 0 } =
      "|0" ∧
    UmaLnurlpResponse.signablePayload
        { LnurlpResponse :=
            { Tag := "", Callback := "", MinSendable := 0, MaxSendable := 0,
              EncodedMetadata := "", Currencies := none, RequiredPayerData := none,
              Compliance := none, UmaVersion := none, CommentCharsAllowed := none,
              NostrPubkey := none, AllowsNostr := none }
          Currencies := []
          RequiredPayerData := []
          Compliance :=
            { KycStatus := ("" : KycStatus), Signature := "", Nonce := "",
              Timestamp := 0, IsSubjectToTravelRule := false, ReceiverIdentifier := "" }
          UmaVersion := ""
          CommentCharsAllowed := none
          NostrPubkey := none
          AllowsNostr := none } =
      "||0" := by
  refine ⟨?_, ?_, by decide, by decide⟩
  · intro cb
    rfl
  · intro r
    rfl

/-! ## Claim C3: URL encoding of a capability request -/

/-- Claim C3: the claim says `EncodeToUrl` succeeds on every request whose
receiver address splits on `@` into two parts, with the travel-rule query
parameter defaulting to `"false"` when the flag is absent.  The code
instead dereferences `*q.IsSubjectToTravelRule` without a nil check, so a
protocol-compliant request (`IsUmaRequest = true`, which does not require
the flag) with the flag absent crashes with a nil-pointer dereference —
contradicting the sibling `AsUmaRequest`, which defaults the same absent
flag to false.  Evaluation at the failing input: -/
theorem encode_to_url_nil_travel_rule_crash :
    travelRuleAbsentUmaRequest.IsUmaRequest = true ∧
      travelRuleAbsentUmaRequest.EncodeToUrl = .nilDeref ∧
      travelRuleAbsentUmaRequest.AsUmaRequest =
        some (travelRuleAbsentUmaRequest.AsUmaRequest.getD
          { LnurlpRequest := travelRuleAbsentUmaRequest, ReceiverAddress := "", Nonce := "",
            Signature := "", IsSubjectToTravelRule := true, VaspDomain := "", Timestamp := 0,
            UmaVersion := "" }) := by
  refine ⟨by decide, by decide, by decide⟩

/-! ## Claim C1: the hybrid amount encoding -/

/-- Claim C1: with `Amount = 1000` and currency code `USD` the serialized
amount field is the literal string `"1000.USD"`; deserializing `"1000.USD"`
yields amount `1000` with currency `USD`; `"1000"` yields amount `1000`
with the currency absent; `"1000.USD.EUR"` (more than one `.`-separated
segment beyond the amount) fails with the invalid-amount error; `"1000."`
(empty right segment) means millisatoshis, currency absent; and a left
segment that is not a base-10 integer is an error. -/
theorem pay_request_amount_roundtrip :
    ({ emptyPayRequest with
        Amount := 1000, SendingAmountCurrencyCode := some "USD" } : PayRequest).MarshalJSON =
      "\x7b\n\t\t\"amount\": \"1000.USD\"\x7d" ∧
    emptyPayRequest.UnmarshalJSON (.obj [("amount", .str "1000.USD")]) =
      (.ok (), { emptyPayRequest with Amount := 1000, SendingAmountCurrencyCode := some "USD" }) ∧
    emptyPayRequest.UnmarshalJSON (.obj [("amount", .str "1000")]) =
      (.ok (), { emptyPayRequest with Amount := 1000 }) ∧
    emptyPayRequest.UnmarshalJSON (.obj [("amount", .str "1000.USD.EUR")]) =
      (.error "invalid amount field", emptyPayRequest) ∧
    emptyPayRequest.UnmarshalJSON (.obj [("amount", .str "1000.")]) =
      (.ok (), { emptyPayRequest with Amount := 1000 }) ∧
    (∀ (p : PayRequest) (s : String),
      (goSplitChar s '.').length ≤ 2 →
      (goParseInt64 ((goSplitChar s '.').headD "")).snd = false →
      p.UnmarshalJSON (.obj [("amount", .str s)]) =
        (.error "strconv.ParseInt: parsing: invalid syntax",
          { p with Amount := (goParseInt64 ((goSplitChar s '.').headD "")).fst })) := by
  refine ⟨by decide, by decide, by decide, by decide, by decide, ?_⟩
  intro p s hlen hbad
  unfold PayRequest.UnmarshalJSON
  show (if (goSplitChar s '.').length > 2 then _ else _) = _
  rw [if_neg (by omega)]
  simp only [hbad, Bool.not_false, if_pos]
  rfl

/-- Witness for `pay_request_amount_roundtrip`: the non-integer left
segment `"12x"` in `"12x.USD"` makes deserialization fail (with the
receiver's amount holding `ParseInt`'s zero result). -/
theorem pay_request_amount_roundtrip_witness :
    emptyPayRequest.UnmarshalJSON (.obj [("amount", .str "12x.USD")]) =
      (.error "strconv.ParseInt: parsing: invalid syntax",
        { emptyPayRequest with
            Amount := (goParseInt64 ((goSplitChar "12x.USD" '.').headD "")).fst }) :=
  pay_request_amount_roundtrip.2.2.2.2.2 emptyPayRequest "12x.USD" (by decide) (by decide)

/-! ## Claim C9: deserialization atomicity -/

/-- Claim C9, counterexample.  The claim says a failed decode leaves every
field of the receiver unchanged.  It does not: decoding `{"convert":"USD"}`
fails on the missing amount field, but only after `ReceivingCurrencyCode`
has already been assigned. -/
theorem unmarshal_failure_partial_mutation :
    emptyPayRequest.UnmarshalJSON (.obj [("convert", .str "USD")]) =
      (.error "missing or invalid amount field",
        { emptyPayRequest with ReceivingCurrencyCode := some "USD" }) ∧
    ({ emptyPayRequest with ReceivingCurrencyCode := some "USD" } : PayRequest) ≠
      emptyPayRequest := by
  exact ⟨by decide, by decide⟩

/-- Claim C9 (amended): when decoding fails, the receiver may already have
`ReceivingCurrencyCode` updated (it is assigned before the amount field is
validated) and `Amount` updated (it receives `ParseInt`'s result before the
parse error is tested); every other field — the sending currency code, the
payer data, the requested payee data and the comment — is unchanged on
every failure. -/
theorem unmarshal_failure_mutation_bound (p : PayRequest) (data : Json) (e : String)
    (pErr : PayRequest) (h : p.UnmarshalJSON data = (.error e, pErr)) :
    pErr.SendingAmountCurrencyCode = p.SendingAmountCurrencyCode ∧
    pErr.PayerData = p.PayerData ∧
    pErr.RequestedPayeeData = p.RequestedPayeeData ∧
    pErr.Comment = p.Comment := by
  unfold PayRequest.UnmarshalJSON at h
  cases hobj : data.asObj with
  | none =>
    rw [hobj] at h
    dsimp only at h
    injection h with h1 h2
    subst h2
    exact ⟨rfl, rfl, rfl, rfl⟩
  | some rawReq =>
    rw [hobj] at h
    dsimp only at h
    have hf : (match (jsonLookup rawReq "convert").bind Json.asString with
        | some convert => { p with ReceivingCurrencyCode := some convert }
        | none => p).SendingAmountCurrencyCode = p.SendingAmountCurrencyCode ∧
        (match (jsonLookup rawReq "convert").bind Json.asString with
        | some convert => { p with ReceivingCurrencyCode := some convert }
        | none => p).PayerData = p.PayerData ∧
        (match (jsonLookup rawReq "convert").bind Json.asString with
        | some convert => { p with ReceivingCurrencyCode := some convert }
        | none => p).RequestedPayeeData = p.RequestedPayeeData ∧
        (match (jsonLookup rawReq "convert").bind Json.asString with
        | some convert => { p with ReceivingCurrencyCode := some convert }
        | none => p).Comment = p.Comment := by
      cases (jsonLookup rawReq "convert").bind Json.asString <;> exact ⟨rfl, rfl, rfl, rfl⟩
    cases hamt : (jsonLookup rawReq "amount").bind Json.asString with
    | none =>
      rw [hamt] at h
      dsimp only at h
      injection h with h1 h2
      subst h2
      exact ⟨hf.1, hf.2.1, hf.2.2.1, hf.2.2.2⟩
    | some amount =>
      rw [hamt] at h
      dsimp only at h
      by_cases hlen : (goSplitChar amount '.').length > 2
      · rw [if_pos hlen] at h
        injection h with h1 h2
        subst h2
        exact ⟨hf.1, hf.2.1, hf.2.2.1, hf.2.2.2⟩
      · rw [if_neg hlen] at h
        cases hok : (goParseInt64 ((goSplitChar amount '.').headD "")).snd with
        | false =>
          rw [hok] at h
          simp only [Bool.not_false, eq_self_iff_true, if_true] at h
          injection h with h1 h2
          subst h2
          exact ⟨hf.1, hf.2.1, hf.2.2.1, hf.2.2.2⟩
        | true =>
          rw [hok] at h
          simp only [Bool.not_true, Bool.false_eq_true, if_false] at h
          injection h with h1 h2
          exact absurd h1 (by simp)

/-- Witness for `unmarshal_failure_mutation_bound` at the decode of
`{"convert":"EUR"}` from the zero value. -/
theorem unmarshal_failure_mutation_bound_witness :
    ({ emptyPayRequest with
        ReceivingCurrencyCode := some "EUR" } : PayRequest).SendingAmountCurrencyCode =
        emptyPayRequest.SendingAmountCurrencyCode ∧
      ({ emptyPayRequest with
          ReceivingCurrencyCode := some "EUR" } : PayRequest).PayerData =
        emptyPayRequest.PayerData ∧
      ({ emptyPayRequest with
          ReceivingCurrencyCode := some "EUR" } : PayRequest).RequestedPayeeData =
        emptyPayRequest.RequestedPayeeData ∧
      ({ emptyPayRequest with
          ReceivingCurrencyCode := some "EUR" } : PayRequest).Comment =
        emptyPayRequest.Comment :=
  unmarshal_failure_mutation_bound emptyPayRequest (.obj [("convert", .str "EUR")])
    "missing or invalid amount field" { emptyPayRequest with ReceivingCurrencyCode := some "EUR" }
    (by decide)

end Uma
